import Mathlib

/-!
Shallow embedding of the dijitso repository (Python) in Lean 4, used to check
the natural-language specification against the code.

Conventions:
* File names and file contents are modelled as `Str := List Char`; the helper
  `lit` converts a Lean string literal to this representation.
* The filesystem is a flat association list from full path names to contents
  (`FS`).  Directories are not modelled as filesystem objects: `os.makedirs`
  only affects directories, never files, so it is the identity on `FS`.
* Python exceptions are modelled by the `PyErr` type; fallible code returns
  `Except PyErr _`.
* Each Python function is translated from the source file named in its doc
  comment.  Functions of this repository whose definition is missing from the
  sources (the `dijitso.log` module, `create_log_filename`) are modelled from
  the spec and say so in their doc comment.
-/

namespace Dijitso

/-- Strings (file names and file contents) as lists of characters. -/
abbrev Str := List Char

/-- Convert a Lean string literal to the `Str` representation. -/
def lit (s : String) : Str := s.data

/-- A flat filesystem: an association list mapping full path names to file
contents.  The first binding for a name is the current one. -/
abbrev FS := List (Str × Str)

/-- Look up the content of a file, `none` when the path does not exist. -/
def fsRead (fs : FS) (n : Str) : Option Str :=
  match fs with
  | [] => none
  | (m, c) :: t => if m = n then some c else fsRead t n

/-- `os.path.exists` on the modelled filesystem. -/
def fsExists (fs : FS) (n : Str) : Bool :=
  (fsRead fs n).isSome

/-- Remove every binding for a name. -/
def fsDelete (fs : FS) (n : Str) : FS :=
  match fs with
  | [] => []
  | (m, c) :: t => if m = n then fsDelete t n else (m, c) :: fsDelete t n

/-- Create or overwrite a file. -/
def fsWrite (fs : FS) (n : Str) (c : Str) : FS :=
  (n, c) :: fsDelete fs n

/-- The names of all files in the filesystem. -/
def fsNames (fs : FS) : List Str :=
  fs.map Prod.fst

/-- Python exceptions that the embedded code can raise. -/
inductive PyErr where
  /-- `TypeError`, e.g. from `x in y` where `y` is an `int`, or
  `os.path.abspath(None)`. -/
  | typeError
  /-- `RuntimeError` raised directly by the code. -/
  | runtimeError
  /-- A fatal error raised through the logging backend's `error()`. -/
  | fatal
  /-- `KeyError` from a missing dict key. -/
  | keyError
  /-- `AssertionError` from a failing `assert`. -/
  | assertionError
  /-- `OSError` with the given `errno`, re-raised by an exception handler. -/
  | osError (e : Nat)
  /-- `IOError` from `open` on a missing file. -/
  | ioError
deriving DecidableEq, Repr

instance {ε α : Type} [DecidableEq ε] [DecidableEq α] : DecidableEq (Except ε α) :=
  fun a b =>
    match a, b with
    | .ok x, .ok y =>
      if h : x = y then .isTrue (by rw [h])
      else .isFalse (fun hc => h (Except.ok.inj hc))
    | .error x, .error y =>
      if h : x = y then .isTrue (by rw [h])
      else .isFalse (fun hc => h (Except.error.inj hc))
    | .ok _, .error _ => .isFalse (fun hc => Except.noConfusion hc)
    | .error _, .ok _ => .isFalse (fun hc => Except.noConfusion hc)

/-! ### Basic filesystem lemmas -/

theorem fsRead_fsWrite_self (fs : FS) (n c : Str) :
    fsRead (fsWrite fs n c) n = some c := by
  simp [fsWrite, fsRead]

theorem fsRead_fsDelete_self (fs : FS) (n : Str) :
    fsRead (fsDelete fs n) n = none := by
  induction fs with
  | nil => simp [fsDelete, fsRead]
  | cons p t ih =>
    by_cases hp : p.1 = n
    · simpa [fsDelete, hp]
    · simpa [fsDelete, hp, fsRead] using ih

theorem fsRead_fsDelete_other (fs : FS) (n m : Str) (h : m ≠ n) :
    fsRead (fsDelete fs n) m = fsRead fs m := by
  induction fs with
  | nil => simp [fsDelete]
  | cons p t ih =>
    by_cases hp : p.1 = n
    · rw [fsDelete, if_pos hp, ih, fsRead, if_neg (by rw [hp]; simpa using h.symm)]
    · rw [fsDelete, if_neg hp]
      by_cases hm : p.1 = m
      · simp [fsRead, hm]
      · simp only [fsRead, if_neg hm]
        exact ih

theorem fsRead_fsWrite_other (fs : FS) (n m c : Str) (h : m ≠ n) :
    fsRead (fsWrite fs n c) m = fsRead fs m := by
  rw [fsWrite, fsRead, if_neg (by simpa using h.symm)]
  exact fsRead_fsDelete_other fs n m h

theorem fsDelete_of_read_none (fs : FS) (n : Str) (h : fsRead fs n = none) :
    fsDelete fs n = fs := by
  induction fs with
  | nil => rfl
  | cons p t ih =>
    rw [fsRead] at h
    by_cases hp : p.1 = n
    · rw [if_pos hp] at h
      exact absurd h (by simp)
    · rw [if_neg hp] at h
      rw [fsDelete, if_neg hp, ih h]

theorem fsNames_fsDelete_sub (fs : FS) (n : Str) :
    ∀ m, m ∈ fsNames (fsDelete fs n) → m ∈ fsNames fs := by
  induction fs with
  | nil => intro m h; exact h
  | cons p t ih =>
    intro m h
    by_cases hp : p.1 = n
    · rw [fsDelete, if_pos hp] at h
      exact List.mem_cons_of_mem _ (ih m h)
    · rw [fsDelete, if_neg hp] at h
      rcases List.mem_cons.mp h with h1 | h2
      · exact List.mem_cons.mpr (Or.inl h1)
      · exact List.mem_cons_of_mem _ (ih m h2)

theorem fsRead_eq_none_of_not_mem_names (fs : FS) (n : Str)
    (h : n ∉ fsNames fs) : fsRead fs n = none := by
  induction fs with
  | nil => rfl
  | cons p t ih =>
    rw [fsNames, List.map_cons] at h
    rw [fsRead, if_neg (fun he => h (by rw [he]; exact List.mem_cons_self _ _))]
    exact ih (fun hm => h (List.mem_cons_of_mem _ hm))

theorem fsRead_isSome_mem_names (fs : FS) (n : Str)
    (h : (fsRead fs n).isSome) : n ∈ fsNames fs := by
  by_cases hm : n ∈ fsNames fs
  · exact hm
  · rw [fsRead_eq_none_of_not_mem_names fs n hm] at h
    simp at h

/-! ### Decimal printing and parsing (Python `str(j)` / `int(s)` on naturals) -/

/-- The character for a decimal digit. -/
def digitCh (d : Nat) : Char := Char.ofNat (48 + d)

/-- The numeric value of a decimal digit character. -/
def chVal (c : Char) : Nat := c.toNat - 48

/-- Python `str(j)` for a natural number: big-endian decimal digits. -/
def natStr (n : Nat) : Str :=
  if n = 0 then lit "0" else ((Nat.digits 10 n).map digitCh).reverse

/-- Python `int(s)` on a string of decimal digit characters (the only shape it
is applied to in `lockfree_move_file`). -/
def strNat (cs : Str) : Nat :=
  Nat.ofDigits 10 ((cs.map chVal).reverse)

theorem chVal_digitCh (d : Nat) (h : d < 10) : chVal (digitCh d) = d := by
  interval_cases d <;> decide

theorem strNat_natStr (n : Nat) : strNat (natStr n) = n := by
  unfold strNat natStr
  by_cases h : n = 0
  · subst h; decide
  · rw [if_neg h, List.map_reverse, List.reverse_reverse, List.map_map]
    have hmap : (Nat.digits 10 n).map (chVal ∘ digitCh) = Nat.digits 10 n := by
      apply List.map_congr_left ?_ |>.trans (List.map_id _)
      intro d hd
      exact chVal_digitCh d (Nat.digits_lt_base (by norm_num) hd)
    rw [hmap, Nat.ofDigits_digits]

theorem natStr_ne_nil (n : Nat) : natStr n ≠ [] := by
  unfold natStr
  by_cases h : n = 0
  · rw [if_pos h]; exact fun hc => by simp [lit] at hc
  · rw [if_neg h]
    intro hc
    have hd := List.reverse_eq_nil_iff.mp hc
    rw [List.map_eq_nil_iff] at hd
    have := Nat.ofDigits_digits 10 n
    rw [hd] at this
    exact h (by simpa using this.symm)

/-! ### `system.py` filesystem helpers -/

/-- `system.py` `try_delete_file`: `os.remove`, swallowing `ENOENT`.  Removing
an absent file is a no-op; any other `OSError` does not arise in this model. -/
def try_delete_file (fs : FS) (filename : Str) : FS :=
  fsDelete fs filename

/-- `system.py` `move_file`: `assert os.path.exists(src)`, `shutil.move`, then
`assert not exists(src)` and `assert exists(dst)`. -/
def move_file (fs : FS) (src dst : Str) : Except PyErr FS :=
  match fsRead fs src with
  | none => .error .assertionError
  | some c =>
    let fs' := fsWrite (fsDelete fs src) dst c
    if fsExists fs' src then .error .assertionError
    else if fsExists fs' dst = false then .error .assertionError
    else .ok fs'

/-- `system.py` `rename_file` at the filesystem level.  `os.rename` fails in
this model exactly when `src` is missing (`ENOENT`); the handler then evaluates
`e.errno not in errno.EEXIST`, and membership in an `int` raises `TypeError`
(see `rename_file_errno` for the errno-level model of the handler). -/
def rename_file (fs : FS) (src dst : Str) : Except PyErr FS :=
  match fsRead fs src with
  | none => .error .typeError
  | some c => .ok (fsWrite (fsDelete fs src) dst c)

/-- `system.py` `try_rename_file` at the filesystem level: a missing source is
`ENOENT`, which the tuple guard swallows; otherwise the rename happens. -/
def try_rename_file (fs : FS) (src dst : Str) : FS :=
  match fsRead fs src with
  | none => fs
  | some c => fsWrite (fsDelete fs src) dst c

/-! ### errno-level model of the rename guards (claim C10) -/

/-- The right operand of Python's `in` as it appears in the rename guards:
either the bare `int` `errno.EEXIST` or a tuple of `int`s. -/
inductive PyIntOrTuple where
  | intC (n : Nat)
  | tupleC (l : List Nat)
deriving DecidableEq, Repr

/-- Python membership `x in y`.  When `y` is an `int` it raises
`TypeError: argument of type 'int' is not iterable`. -/
def pyMem (x : Nat) : PyIntOrTuple → Except PyErr Bool
  | .intC _ => .error .typeError
  | .tupleC l => .ok (decide (x ∈ l))

/-- `errno.EEXIST` on Linux. -/
def EEXIST : Nat := 17

/-- `errno.ENOENT` on Linux. -/
def ENOENT : Nat := 2

/-- Outcome of the underlying `os.rename` call. -/
inductive RenameResult where
  | success
  | failure (e : Nat)
deriving DecidableEq, Repr

/-- `system.py` `rename_file`, errno-level: on failure the handler runs
`if e.errno not in errno.EEXIST: raise`. -/
def rename_file_errno (r : RenameResult) : Except PyErr Unit :=
  match r with
  | .success => .ok ()
  | .failure e =>
    match pyMem e (.intC EEXIST) with
    | .error err => .error err
    | .ok b => if b = false then .error (.osError e) else .ok ()

/-- `system.py` `try_rename_file`, errno-level: on failure the handler runs
`if e.errno not in (errno.ENOENT, errno.EEXIST): raise`. -/
def try_rename_file_errno (r : RenameResult) : Except PyErr Unit :=
  match r with
  | .success => .ok ()
  | .failure e =>
    match pyMem e (.tupleC [ENOENT, EEXIST]) with
    | .error err => .error err
    | .ok b => if b = false then .error (.osError e) else .ok ()

/-! ### `system.py` `lockfree_move_file` -/

/-- The `".priv."` infix of staging names. -/
def privTag : Str := lit ".priv."

/-- The `".pub."` infix of staging names. -/
def pubTag : Str := lit ".pub."

/-- `priv(j)` from `lockfree_move_file`. -/
def privN (dst : Str) (j : Nat) : Str := dst ++ privTag ++ natStr j

/-- `pub(j)` from `lockfree_move_file`. -/
def pubN (dst : Str) (j : Nat) : Str := dst ++ pubTag ++ natStr j

/-- `glob(pub("*"))` followed by `int(fn[n:])` with
`n = len(pub("*")) - 1`: the uuids of all competing `.pub.` files. -/
def pubUuids (fs : FS) (dst : Str) : List Nat :=
  ((fsNames fs).filter (fun nm => decide ((dst ++ pubTag) <+: nm))).map
    (fun nm => strNat (nm.drop ((dst ++ pubTag ++ lit "*").length - 1)))

/-- Insert into a sorted list (ascending). -/
def insertSorted (x : Nat) : List Nat → List Nat
  | [] => [x]
  | y :: t => if x ≤ y then x :: y :: t else y :: insertSorted x t

/-- Python `sorted` on a list of naturals (insertion sort, ascending). -/
def sortNat (l : List Nat) : List Nat :=
  l.foldr insertSorted []

/-- Result of `lockfree_move_file`: the final filesystem, and whether the
non-fatal `warning` (modelled from the spec: the logging backend's `warning`
only emits a message) was issued. -/
structure MoveResult where
  fs : FS
  warned : Bool
deriving DecidableEq, Repr

/-- `system.py` `lockfree_move_file(src, dst)`.  The 128-bit id from
`uuid.uuid4().int` is passed in as `ui`.  Executed atomically against the
filesystem (call-granularity interleaving). -/
def lockfree_move_file (fs : FS) (src dst : Str) (ui : Nat) :
    Except PyErr MoveResult :=
  if fsExists fs src = false then .error .runtimeError
  else if fsExists fs dst then
    match fsRead fs src, fsRead fs dst with
    | some s, some d =>
      if s ≠ d then .ok ⟨fs, true⟩
      else .ok ⟨try_delete_file fs src, false⟩
    | _, _ => .error .ioError
  else
    match move_file fs src (privN dst ui) with
    | .error e => .error e
    | .ok fs1 =>
      match rename_file fs1 (privN dst ui) (pubN dst ui) with
      | .error e => .error e
      | .ok fs2 =>
        let uuids := sortNat (pubUuids fs2 dst)
        let fs3 := uuids.foldl
          (fun g i => if ui < i then try_delete_file g (pubN dst i) else g) fs2
        let st := uuids.foldl
          (fun (p : FS × Nat) i =>
            if i < p.2 then (try_delete_file p.1 (pubN dst p.2), i) else p)
          (fs3, ui)
        let fs5 := if fsExists st.1 dst then try_delete_file st.1 (pubN dst st.2)
                   else try_rename_file st.1 (pubN dst st.2) dst
        if fsExists fs5 src then .error .runtimeError
        else if fsExists fs5 dst = false then .error .runtimeError
        else .ok ⟨fs5, false⟩

/-! ### Further filesystem lemmas -/

@[simp] theorem fsRead_nil (n : Str) : fsRead [] n = none := rfl

@[simp] theorem fsRead_cons (m c : Str) (t : FS) (n : Str) :
    fsRead ((m, c) :: t) n = if m = n then some c else fsRead t n := rfl

@[simp] theorem fsDelete_nil (n : Str) : fsDelete [] n = [] := rfl

@[simp] theorem fsDelete_cons (m c : Str) (t : FS) (n : Str) :
    fsDelete ((m, c) :: t) n =
      if m = n then fsDelete t n else (m, c) :: fsDelete t n := rfl

@[simp] theorem fsNames_nil : fsNames [] = [] := rfl

@[simp] theorem fsNames_cons (m c : Str) (t : FS) :
    fsNames ((m, c) :: t) = m :: fsNames t := rfl

theorem fsExists_false_iff (fs : FS) (n : Str) :
    fsExists fs n = false ↔ fsRead fs n = none := by
  unfold fsExists
  cases fsRead fs n <;> simp

theorem fsExists_true_of_read (fs : FS) (n c : Str) (h : fsRead fs n = some c) :
    fsExists fs n = true := by
  unfold fsExists; rw [h]; rfl

theorem fsExists_fsDelete_imp (fs : FS) (n m : Str)
    (h : fsExists (fsDelete fs n) m = true) : fsExists fs m = true := by
  induction fs with
  | nil => simpa [fsDelete] using h
  | cons p t ih =>
    obtain ⟨a, c⟩ := p
    by_cases ha : a = m
    · simp [fsExists, ha]
    · by_cases hp : a = n
      · rw [fsDelete_cons, if_pos hp] at h
        have := ih h
        simpa [fsExists, ha] using this
      · rw [fsDelete_cons, if_neg hp] at h
        rw [fsExists, fsRead_cons, if_neg ha] at h ⊢
        exact ih h

theorem fsExists_fsDelete_false (fs : FS) (n m : Str)
    (h : fsExists fs m = false) : fsExists (fsDelete fs n) m = false := by
  cases hx : fsExists (fsDelete fs n) m
  · rfl
  · exact absurd (fsExists_fsDelete_imp fs n m hx) (by simp [h])

theorem self_ne_append (a b : Str) (hb : b ≠ []) : a ≠ a ++ b := by
  intro h
  have := congrArg List.length h
  rw [List.length_append] at this
  have : b.length = 0 := by omega
  exact hb (List.length_eq_zero.mp this)

/-! ### Facts about the staging names -/

theorem pubTag_prefix_pubN (dst : Str) (j : Nat) :
    (dst ++ pubTag) <+: pubN dst j :=
  (dst ++ pubTag).prefix_append _

theorem privTag_prefix_privN (dst : Str) (j : Nat) :
    (dst ++ privTag) <+: privN dst j :=
  (dst ++ privTag).prefix_append _

theorem dst_ne_pubN (dst : Str) (j : Nat) : dst ≠ pubN dst j := by
  intro h
  have := congrArg List.length h
  simp [pubN, pubTag, lit, List.length_append] at this

theorem dst_ne_privN (dst : Str) (j : Nat) : dst ≠ privN dst j := by
  intro h
  have := congrArg List.length h
  simp [privN, privTag, lit, List.length_append] at this

theorem privN_ne_pubN (dst : Str) (j k : Nat) : privN dst j ≠ pubN dst k := by
  intro h
  unfold privN pubN at h
  rw [List.append_assoc, List.append_assoc] at h
  have h2 := List.append_cancel_left h
  have h3 := congrArg (List.take 3) h2
  rw [List.take_append_of_le_length (by decide),
    List.take_append_of_le_length (by decide)] at h3
  exact absurd h3 (by decide)

/-- The uuid parse in `lockfree_move_file` recovers `j` from `pub(j)`:
`pub(j)[len(pub("*")) - 1:] = str(j)` and `int(str(j)) = j`. -/
theorem pubN_parse (dst : Str) (j : Nat) :
    strNat ((pubN dst j).drop ((dst ++ pubTag ++ lit "*").length - 1)) = j := by
  have hlen : (dst ++ pubTag ++ lit "*").length - 1 = (dst ++ pubTag).length := by
    simp [List.length_append, pubTag, lit]
  rw [hlen]
  show strNat (((dst ++ pubTag) ++ natStr j).drop (dst ++ pubTag).length) = j
  rw [List.drop_left, strNat_natStr]

/-! ### Claim C1: `lockfree_move_file` with a fresh destination -/

/-- C1.  A call `lockfree_move_file(src, dst)` in a state where `src` exists,
`dst` does not, and no `<dst>.pub.*` / `<dst>.priv.*` files are present,
terminates normally: `dst` holds the source content, `src` is gone, and no
`.pub.`/`.priv.` straggler remains.  Moreover a second, serialized call racing
on the same `dst` also terminates normally and leaves exactly the first
caller's file at `dst`, again with no stragglers. -/
theorem lockfree_move_file_fresh_dst
    (fs : FS) (src dst : Str) (ui : Nat) (content : Str)
    (hsrc : fsRead fs src = some content)
    (hdst : fsExists fs dst = false)
    (hpub : ∀ nm ∈ fsNames fs, ¬ (dst ++ pubTag) <+: nm)
    (hpriv : ∀ nm ∈ fsNames fs, ¬ (dst ++ privTag) <+: nm) :
    ∃ fs1,
      lockfree_move_file fs src dst ui = .ok ⟨fs1, false⟩
      ∧ fs1 = fsWrite (fsDelete fs src) dst content
      ∧ fsRead fs1 dst = some content
      ∧ fsExists fs1 src = false
      ∧ (∀ j, fsExists fs1 (pubN dst j) = false ∧ fsExists fs1 (privN dst j) = false)
      ∧ ∀ src2 c2 u2, fsRead fs1 src2 = some c2 → src2 ≠ dst →
          ∃ r : MoveResult, lockfree_move_file fs1 src2 dst u2 = .ok r
            ∧ fsRead r.fs dst = some content
            ∧ ∀ j, fsExists r.fs (pubN dst j) = false
                 ∧ fsExists r.fs (privN dst j) = false := by
  -- abbreviations and basic disequalities
  set D := fsDelete fs src with hD
  have hReadDst : fsRead fs dst = none := (fsExists_false_iff fs dst).mp hdst
  have hSrcMem : src ∈ fsNames fs :=
    fsRead_isSome_mem_names fs src (by rw [hsrc]; rfl)
  have hsrcdst : src ≠ dst := by
    intro h; rw [h, hReadDst] at hsrc; cases hsrc
  have hPubNotMem : ∀ j, pubN dst j ∉ fsNames fs := fun j hin =>
    hpub _ hin (pubTag_prefix_pubN dst j)
  have hPrivNotMem : ∀ j, privN dst j ∉ fsNames fs := fun j hin =>
    hpriv _ hin (privTag_prefix_privN dst j)
  have hSrcNePriv : src ≠ privN dst ui := fun h => hPrivNotMem ui (h ▸ hSrcMem)
  have hSrcNePub : src ≠ pubN dst ui := fun h => hPubNotMem ui (h ▸ hSrcMem)
  have hReadPrivD : fsRead D (privN dst ui) = none := by
    rw [hD, fsRead_fsDelete_other fs src _ (Ne.symm hSrcNePriv)]
    exact fsRead_eq_none_of_not_mem_names fs _ (hPrivNotMem ui)
  have hReadPubD : ∀ j, fsRead D (pubN dst j) = none := by
    intro j
    by_cases hjs : pubN dst j = src
    · rw [hD, hjs, fsRead_fsDelete_self]
    · rw [hD, fsRead_fsDelete_other fs src _ hjs]
      exact fsRead_eq_none_of_not_mem_names fs _ (hPubNotMem j)
  have hReadDstD : fsRead D dst = none := by
    rw [hD, fsRead_fsDelete_other fs src dst (Ne.symm hsrcdst)]
    exact hReadDst
  have hNamesD : ∀ nm ∈ fsNames D, ¬ (dst ++ pubTag) <+: nm := fun nm hin =>
    hpub nm (fsNames_fsDelete_sub fs src nm hin)
  have hDelPrivD : fsDelete D (privN dst ui) = D :=
    fsDelete_of_read_none D _ hReadPrivD
  have hDelPubD : ∀ j, fsDelete D (pubN dst j) = D := fun j =>
    fsDelete_of_read_none D _ (hReadPubD j)
  have hw : fsWrite D (privN dst ui) content = (privN dst ui, content) :: D := by
    rw [fsWrite, hDelPrivD]
  -- step 1: move_file src -> priv(ui)
  have hmove : move_file fs src (privN dst ui) = .ok ((privN dst ui, content) :: D) := by
    have h1 : fsExists ((privN dst ui, content) :: D) src = false := by
      rw [fsExists_false_iff, fsRead_cons, if_neg (Ne.symm hSrcNePriv), hD,
        fsRead_fsDelete_self]
    have h2 : fsExists ((privN dst ui, content) :: D) (privN dst ui) = true := by
      simp [fsExists]
    simp [move_file, hsrc, hw, h1, h2]
  -- step 2: rename priv(ui) -> pub(ui)
  have hren : rename_file ((privN dst ui, content) :: D) (privN dst ui) (pubN dst ui)
      = .ok ((pubN dst ui, content) :: D) := by
    simp [rename_file, fsWrite, hDelPrivD, hDelPubD ui]
  -- step 3: the glob sees exactly our pub file
  have hglob : pubUuids ((pubN dst ui, content) :: D) dst = [ui] := by
    unfold pubUuids
    rw [fsNames_cons, List.filter_cons_of_pos
      (by simpa using pubTag_prefix_pubN dst ui)]
    rw [List.filter_eq_nil_iff.mpr (by intro nm hnm; simpa using hNamesD nm hnm)]
    rw [List.map_singleton, pubN_parse]
  -- step 4: both loops are no-ops and the final rename installs dst
  have hfs2dst : fsExists ((pubN dst ui, content) :: D) dst = false := by
    rw [fsExists_false_iff, fsRead_cons, if_neg (Ne.symm (dst_ne_pubN dst ui)),
      hReadDstD]
  have hfinal : try_rename_file ((pubN dst ui, content) :: D) (pubN dst ui) dst
      = (dst, content) :: D := by
    simp [try_rename_file, fsWrite, hDelPubD ui,
      fsDelete_of_read_none D dst hReadDstD]
  -- assemble the run
  have hrun : lockfree_move_file fs src dst ui = .ok ⟨(dst, content) :: D, false⟩ := by
    unfold lockfree_move_file
    rw [fsExists_true_of_read fs src content hsrc]
    simp only [Bool.true_eq_false, if_false, hdst, hmove, hren, hglob]
    rw [if_neg (by simp)]
    simp only [sortNat, List.foldr, insertSorted, List.foldl, lt_irrefl, if_false,
      hfs2dst, hfinal]
    have h5src : fsExists ((dst, content) :: D) src = false := by
      rw [fsExists_false_iff, fsRead_cons, if_neg (Ne.symm hsrcdst), hD,
        fsRead_fsDelete_self]
    have h5dst : fsExists ((dst, content) :: D) dst = true := by
      simp [fsExists]
    simp [h5src, h5dst]
  -- facts about the final state
  have hfs1eq : fsWrite D dst content = (dst, content) :: D := by
    rw [fsWrite, fsDelete_of_read_none D dst hReadDstD]
  have hstragglers : ∀ j, fsExists ((dst, content) :: D) (pubN dst j) = false
      ∧ fsExists ((dst, content) :: D) (privN dst j) = false := by
    intro j
    constructor
    · rw [fsExists_false_iff, fsRead_cons, if_neg (dst_ne_pubN dst j), hReadPubD j]
    · rw [fsExists_false_iff, fsRead_cons, if_neg (dst_ne_privN dst j)]
      by_cases hjs : privN dst j = src
      · rw [hD, hjs, fsRead_fsDelete_self]
      · rw [hD, fsRead_fsDelete_other fs src _ hjs]
        exact fsRead_eq_none_of_not_mem_names fs _ (hPrivNotMem j)
  refine ⟨(dst, content) :: D, hrun, hfs1eq.symm, by simp [fsExists], ?_, hstragglers, ?_⟩
  · rw [fsExists_false_iff, fsRead_cons, if_neg (Ne.symm hsrcdst), hD,
      fsRead_fsDelete_self]
  -- the serialized racing call
  intro src2 c2 u2 hsrc2 hne2
  have hdstread : fsRead ((dst, content) :: D) dst = some content := by
    simp [fsRead_cons]
  have he1 : fsExists ((dst, content) :: D) src2 = true :=
    fsExists_true_of_read _ _ _ hsrc2
  have he2 : fsExists ((dst, content) :: D) dst = true :=
    fsExists_true_of_read _ _ _ hdstread
  by_cases hcc : c2 = content
  · -- identical content: the second caller deletes its source
    refine ⟨⟨fsDelete ((dst, content) :: D) src2, false⟩, ?_, ?_, ?_⟩
    · simp [lockfree_move_file, he1, he2, hsrc2, hdstread, hcc, try_delete_file]
    · show fsRead (fsDelete ((dst, content) :: D) src2) dst = some content
      rw [fsRead_fsDelete_other _ _ _ (Ne.symm hne2), hdstread]
    · intro j
      exact ⟨fsExists_fsDelete_false _ _ _ (hstragglers j).1,
        fsExists_fsDelete_false _ _ _ (hstragglers j).2⟩
  · -- different content: warn and leave everything alone
    refine ⟨⟨(dst, content) :: D, true⟩, ?_, hdstread, hstragglers⟩
    simp [lockfree_move_file, he1, he2, hsrc2, hdstread, hcc]

/-- C1, witness: the main theorem applied at a concrete one-file state. -/
theorem lockfree_move_file_fresh_dst_witness :
    ∃ fs1,
      lockfree_move_file [(lit "s", lit "x")] (lit "s") (lit "d") 3 = .ok ⟨fs1, false⟩
      ∧ fs1 = fsWrite (fsDelete [(lit "s", lit "x")] (lit "s")) (lit "d") (lit "x")
      ∧ fsRead fs1 (lit "d") = some (lit "x")
      ∧ fsExists fs1 (lit "s") = false
      ∧ (∀ j, fsExists fs1 (pubN (lit "d") j) = false
           ∧ fsExists fs1 (privN (lit "d") j) = false)
      ∧ ∀ src2 c2 u2, fsRead fs1 src2 = some c2 → src2 ≠ lit "d" →
          ∃ r : MoveResult,
            lockfree_move_file fs1 src2 (lit "d") u2 = .ok r
            ∧ fsRead r.fs (lit "d") = some (lit "x")
            ∧ ∀ j, fsExists r.fs (pubN (lit "d") j) = false
                 ∧ fsExists r.fs (privN (lit "d") j) = false :=
  lockfree_move_file_fresh_dst [(lit "s", lit "x")] (lit "s") (lit "d") 3 (lit "x")
    (by decide) (by decide) (by decide) (by decide)

/-! ### Claim C2: install collision with different content -/

/-- C2, counterexample: with `dst` present and holding different bytes, the
call warns and returns, but the source file is **not** deleted — contradicting
the claim that the source is removed. -/
theorem lockfree_move_file_collision_keeps_src :
    lockfree_move_file [(lit "s", lit "a"), (lit "d", lit "b")]
        (lit "s") (lit "d") 7
      = .ok ⟨[(lit "s", lit "a"), (lit "d", lit "b")], true⟩
    ∧ fsExists [(lit "s", lit "a"), (lit "d", lit "b")] (lit "s") = true := by
  decide

/-- C2 (amended).  When `dst` exists with content different from `src`,
`lockfree_move_file` emits the warning, leaves the filesystem — in particular
both `dst` and `src` — completely unchanged, and returns without error. -/
theorem lockfree_move_file_collision_warns
    (fs : FS) (src dst : Str) (ui : Nat) (cs cd : Str)
    (hs : fsRead fs src = some cs) (hd : fsRead fs dst = some cd)
    (hne : cs ≠ cd) :
    lockfree_move_file fs src dst ui = .ok ⟨fs, true⟩ := by
  have he1 : fsExists fs src = true := fsExists_true_of_read _ _ _ hs
  have he2 : fsExists fs dst = true := fsExists_true_of_read _ _ _ hd
  simp [lockfree_move_file, he1, he2, hs, hd, hne]

/-- C2, witness: the amended theorem applied at a concrete two-file state. -/
theorem lockfree_move_file_collision_warns_witness :
    lockfree_move_file [(lit "s", lit "a"), (lit "d", lit "b")]
        (lit "s") (lit "d") 7
      = .ok ⟨[(lit "s", lit "a"), (lit "d", lit "b")], true⟩ :=
  lockfree_move_file_collision_warns [(lit "s", lit "a"), (lit "d", lit "b")]
    (lit "s") (lit "d") 7 (lit "a") (lit "b") (by decide) (by decide) (by decide)

/-! ### Claim C10: the `errno` membership guards of the rename helpers -/

/-- C10, counterexample: `try_rename_file`'s guard uses a *tuple*, so a failing
rename with `errno == EEXIST` is swallowed normally — it does not raise
`TypeError` as the claim states for both functions. -/
theorem try_rename_file_guard_counterexample :
    try_rename_file_errno (.failure 17) = .ok ()
    ∧ try_rename_file_errno (.failure 17) ≠ .error PyErr.typeError := by
  decide

/-- C10 (amended).  Whenever the underlying `os.rename` inside `rename_file`
fails with any error, the guard `e.errno not in errno.EEXIST` tests integer
membership in an `int` and raises `TypeError`, so the documented swallowing of
`EEXIST` is never reached; `try_rename_file`'s guard, by contrast, uses a
tuple and correctly swallows `ENOENT`/`EEXIST` and re-raises anything else. -/
theorem rename_file_guard_behavior (e : Nat) (h1 : e ≠ ENOENT) (h2 : e ≠ EEXIST) :
    rename_file_errno (.failure e) = .error .typeError
    ∧ rename_file_errno (.failure EEXIST) = .error .typeError
    ∧ try_rename_file_errno (.failure ENOENT) = .ok ()
    ∧ try_rename_file_errno (.failure EEXIST) = .ok ()
    ∧ try_rename_file_errno (.failure e) = .error (.osError e) := by
  refine ⟨rfl, rfl, by decide, by decide, ?_⟩
  simp [try_rename_file_errno, pyMem, ENOENT, EEXIST] at h1 h2 ⊢
  simp [h1, h2]

/-- C10, witness: the amended theorem applied at `errno == 13` (`EACCES`). -/
theorem rename_file_guard_behavior_witness :
    rename_file_errno (.failure 13) = .error .typeError
    ∧ rename_file_errno (.failure EEXIST) = .error .typeError
    ∧ try_rename_file_errno (.failure ENOENT) = .ok ()
    ∧ try_rename_file_errno (.failure EEXIST) = .ok ()
    ∧ try_rename_file_errno (.failure 13) = .error (.osError 13) :=
  rename_file_guard_behavior 13 (by decide) (by decide)

/-! ### `cache.py`: paths, reads, stores, retention -/

/-- Cache parameters as read by `cache.py`.  Python dict keys are renamed to
Lean-friendly field names: `root_dir` ↦ `rootDir`, `inc_dir` ↦ `incDir`,
`src_dir` ↦ `srcDir`, `lib_dir` ↦ `libDir`, `log_dir` ↦ `logDir`,
`inc_postfix` ↦ `incSuffix`, `src_postfix` ↦ `srcSuffix`,
`log_postfix` ↦ `logSuffix`, `lib_postfix` ↦ `libSuffix`,
`lib_prefix` ↦ `libPre`, `src_storage` ↦ `srcStorage`. -/
structure CacheParams where
  rootDir : Str
  incDir : Str
  srcDir : Str
  libDir : Str
  logDir : Str
  incSuffix : Str
  srcSuffix : Str
  logSuffix : Str
  libSuffix : Str
  libPre : Str
  srcStorage : Str
deriving DecidableEq, Repr

/-- `os.path.join` for a relative second component. -/
def pjoin (a b : Str) : Str := a ++ lit "/" ++ b

/-- `os.path.join` with three components. -/
def pjoin3 (a b c : Str) : Str := pjoin (pjoin a b) c

/-- `cache.py` `create_inc_filename`. -/
def create_inc_filename (signature : Str) (cp : CacheParams) : Str :=
  pjoin3 cp.rootDir cp.incDir (signature ++ cp.incSuffix)

/-- `cache.py` `create_src_filename`. -/
def create_src_filename (signature : Str) (cp : CacheParams) : Str :=
  pjoin3 cp.rootDir cp.srcDir (signature ++ cp.srcSuffix)

/-- `cache.py` `create_lib_filename`. -/
def create_lib_filename (signature : Str) (cp : CacheParams) : Str :=
  pjoin3 cp.rootDir cp.libDir (cp.libPre ++ signature ++ cp.libSuffix)

/-- Modelled from the spec: `create_log_filename` is called by
`cache.py`'s `read_log` but its definition is missing from `cache.py`; the
spec's on-disk layout names the log artifact `log/<signature>.txt` under the
cache root, with configurable subdirectory and postfix. -/
def create_log_filename (signature : Str) (cp : CacheParams) : Str :=
  pjoin3 cp.rootDir cp.logDir (signature ++ cp.logSuffix)

/-- Gzip compression, modelled as an executable injective coding. -/
def gzipC (c : Str) : Str := lit "gz:" ++ c

/-- Gzip decompression of content produced by `gzipC`. -/
def gunzip (s : Str) : Str := s.drop 3

theorem gunzip_gzipC (c : Str) : gunzip (gzipC c) = c := by
  show (lit "gz:" ++ c).drop 3 = c
  rw [show (3 : Nat) = (lit "gz:").length from rfl, List.drop_left]

/-- `cache.py` `read_file`: content of `filename`, else transparently
decompressed content of `filename.gz`, else `None`. -/
def read_file (fs : FS) (filename : Str) : Option Str :=
  if fsExists fs filename then fsRead fs filename
  else if fsExists fs (filename ++ lit ".gz") then
    (fsRead fs (filename ++ lit ".gz")).map gunzip
  else none

/-- `cache.py` `read_log`. -/
def read_log (signature : Str) (cp : CacheParams) (fs : FS) : Option Str :=
  read_file fs (create_log_filename signature cp)

/-- Observable filesystem events of a `store_textfile` call. -/
inductive FEvent where
  /-- A direct `open(n, "w").write(c)`. -/
  | write (n : Str) (c : Str)
  /-- A `lockfree_move_file(src, dst)` call. -/
  | moveLF (src dst : Str)
  /-- A `warning(...)` message (logging backend modelled from the spec). -/
  | warn
deriving DecidableEq, Repr

/-- Is the event a `lockfree_move_file` call? -/
def isMoveLF : FEvent → Bool
  | .moveLF _ _ => true
  | _ => false

/-- `cache.py` `store_textfile(filename, content)`: returns the new
filesystem and the trace of events, in program order. -/
def store_textfile (fs : FS) (filename content : Str) : FS × List FEvent :=
  match fsRead fs filename with
  | some old =>
    if old ≠ content then
      (fsWrite (fsWrite fs (filename ++ lit ".orig") old) filename content,
        [.write (filename ++ lit ".orig") old, .write filename content, .warn])
    else (fs, [.warn])
  | none => (fsWrite fs filename content, [.write filename content])

/-- `cache.py` `compress_source_code(src_filename, cache_params)`.
`deletefile` (imported from `dijitso.system`, where it is spelled
`try_delete_file`) swallows `ENOENT`, and `error()` from the logging backend
is fatal. -/
def compress_source_code (fs : FS) (src_filename : Str) (cp : CacheParams) :
    Except PyErr FS :=
  if cp.srcStorage = lit "keep" then .ok fs
  else if cp.srcStorage = lit "delete" then .ok (fsDelete fs src_filename)
  else if cp.srcStorage = lit "compress" then
    match fsRead fs src_filename with
    | none => .error .ioError
    | some c =>
      .ok (fsDelete (fsWrite fs (src_filename ++ lit ".gz") (gzipC c)) src_filename)
  else .error .fatal

/-! ### Claim C4: `store_textfile` -/

/-- C4, counterexample: a `store_textfile` call on a fresh path performs a
single direct write to the path itself — its trace holds no write to any
temporary `<path>.<uuid>` file and no lock-free move installing `path`, so the
claimed temp-file-then-move protocol does not happen. -/
theorem store_textfile_no_temp_counterexample :
    (store_textfile [] (lit "p") (lit "hello")).2
      = [FEvent.write (lit "p") (lit "hello")]
    ∧ ((store_textfile [] (lit "p") (lit "hello")).2.all
        fun e => !isMoveLF e) = true := by
  decide

/-- C4 (amended).  `store_textfile(path, content)` writes the content
*directly* to `path` — with no temporary file and no lock-free move anywhere
in its trace.  If `path` already holds different content, the old content is
first backed up to `<path>.orig` and `path` is then overwritten in place. -/
theorem store_textfile_direct (fs : FS) (p c : Str) :
    fsRead (store_textfile fs p c).1 p = some c
    ∧ ((store_textfile fs p c).2.all fun e => !isMoveLF e) = true
    ∧ (∀ old, fsRead fs p = some old → old ≠ c →
        fsRead (store_textfile fs p c).1 (p ++ lit ".orig") = some old) := by
  have horig : p ≠ p ++ lit ".orig" := self_ne_append p _ (by decide)
  rcases h : fsRead fs p with _ | old
  · refine ⟨?_, ?_, ?_⟩
    · simp [store_textfile, h, fsRead_fsWrite_self]
    · simp [store_textfile, h, isMoveLF]
    · intro old hold
      exact absurd hold (by simp)
  · by_cases hc : old = c
    · subst hc
      refine ⟨?_, ?_, ?_⟩
      · simp [store_textfile, h]
      · simp [store_textfile, h, isMoveLF]
      · intro old2 hold2 hne2
        injection hold2 with he
        exact absurd he.symm hne2
    · refine ⟨?_, ?_, ?_⟩
      · simp [store_textfile, h, hc, fsRead_fsWrite_self]
      · simp [store_textfile, h, hc, isMoveLF]
      · intro old2 hold2 _
        injection hold2 with he
        subst he
        simp only [store_textfile, h, if_pos hc]
        rw [fsRead_fsWrite_other _ _ _ _ (Ne.symm horig), fsRead_fsWrite_self]

/-- C4, witness: the amended theorem at a state where the path exists with
different content. -/
theorem store_textfile_direct_witness :
    fsRead (store_textfile [(lit "p", lit "old")] (lit "p") (lit "new")).1
        (lit "p") = some (lit "new")
    ∧ ((store_textfile [(lit "p", lit "old")] (lit "p") (lit "new")).2.all
        fun e => !isMoveLF e) = true
    ∧ (∀ old, fsRead [(lit "p", lit "old")] (lit "p") = some old →
        old ≠ lit "new" →
        fsRead (store_textfile [(lit "p", lit "old")] (lit "p") (lit "new")).1
          (lit "p" ++ lit ".orig") = some old) :=
  store_textfile_direct [(lit "p", lit "old")] (lit "p") (lit "new")

/-! ### Claim C8: `compress_source_code` retention policy -/

/-- C8.  `compress_source_code` dispatches on `src_storage`: `keep` leaves the
filesystem unchanged; `delete` removes the source file (touching nothing
else); `compress` creates `<src_filename>.gz` with the gzipped content and
removes the original; any other value raises a fatal error. -/
theorem compress_source_code_policy (fs : FS) (sf : Str) (cp : CacheParams)
    (c : Str) (h : fsRead fs sf = some c) :
    (cp.srcStorage = lit "keep" → compress_source_code fs sf cp = .ok fs)
    ∧ (cp.srcStorage = lit "delete" →
        ∃ fs', compress_source_code fs sf cp = .ok fs'
          ∧ fsExists fs' sf = false
          ∧ ∀ n, n ≠ sf → fsRead fs' n = fsRead fs n)
    ∧ (cp.srcStorage = lit "compress" →
        ∃ fs', compress_source_code fs sf cp = .ok fs'
          ∧ fsRead fs' (sf ++ lit ".gz") = some (gzipC c)
          ∧ fsExists fs' sf = false)
    ∧ (cp.srcStorage ≠ lit "keep" → cp.srcStorage ≠ lit "delete" →
        cp.srcStorage ≠ lit "compress" →
        compress_source_code fs sf cp = .error .fatal) := by
  have hgz : sf ≠ sf ++ lit ".gz" := self_ne_append sf _ (by decide)
  refine ⟨?_, ?_, ?_, ?_⟩
  · intro hs
    unfold compress_source_code
    rw [hs, if_pos rfl]
  · intro hs
    refine ⟨fsDelete fs sf, ?_, ?_, ?_⟩
    · unfold compress_source_code
      rw [hs, if_neg (by decide), if_pos rfl]
    · rw [fsExists_false_iff]; exact fsRead_fsDelete_self fs sf
    · intro n hn; exact fsRead_fsDelete_other fs sf n hn
  · intro hs
    refine ⟨fsDelete (fsWrite fs (sf ++ lit ".gz") (gzipC c)) sf, ?_, ?_, ?_⟩
    · unfold compress_source_code
      rw [hs, if_neg (by decide), if_neg (by decide), if_pos rfl, h]
    · rw [fsRead_fsDelete_other _ _ _ (Ne.symm hgz), fsRead_fsWrite_self]
    · rw [fsExists_false_iff]; exact fsRead_fsDelete_self _ sf
  · intro h1 h2 h3
    unfold compress_source_code
    rw [if_neg h1, if_neg h2, if_neg h3]

/-- C8, witness: the policy theorem applied at a one-file state with
`src_storage = "compress"`. -/
theorem compress_source_code_policy_witness :
    ∃ fs', compress_source_code [(lit "f", lit "code")] (lit "f")
        { rootDir := lit "r", incDir := lit "inc", srcDir := lit "src",
          libDir := lit "lib", logDir := lit "log", incSuffix := lit ".h",
          srcSuffix := lit ".cpp", logSuffix := lit ".txt",
          libSuffix := lit ".so", libPre := lit "libdijitso-",
          srcStorage := lit "compress" } = .ok fs'
      ∧ fsRead fs' (lit "f" ++ lit ".gz") = some (gzipC (lit "code"))
      ∧ fsExists fs' (lit "f") = false :=
  (compress_source_code_policy [(lit "f", lit "code")] (lit "f")
    { rootDir := lit "r", incDir := lit "inc", srcDir := lit "src",
      libDir := lit "lib", logDir := lit "log", incSuffix := lit ".h",
      srcSuffix := lit ".cpp", logSuffix := lit ".txt",
      libSuffix := lit ".so", libPre := lit "libdijitso-",
      srcStorage := lit "compress" } (lit "code") (by decide)).2.2.1 (by decide)

/-! ### Claim C9: `read_log` -/

/-- C9.  `read_log` returns the log file's content when the log file exists in
the cache, the transparently decompressed content when only its `.gz` variant
exists, and `none` when neither exists — never an error (`create_log_filename`
is modelled from the spec, being absent from `cache.py`). -/
theorem read_log_content (fs : FS) (sig : Str) (cp : CacheParams) (c : Str) :
    (fsRead fs (create_log_filename sig cp) = some c →
      read_log sig cp fs = some c)
    ∧ (fsRead fs (create_log_filename sig cp) = none →
       fsRead fs (create_log_filename sig cp ++ lit ".gz") = some (gzipC c) →
      read_log sig cp fs = some c)
    ∧ (fsRead fs (create_log_filename sig cp) = none →
       fsRead fs (create_log_filename sig cp ++ lit ".gz") = none →
      read_log sig cp fs = none) := by
  refine ⟨?_, ?_, ?_⟩
  · intro h
    simp [read_log, read_file, fsExists_true_of_read _ _ _ h, h]
  · intro h1 h2
    have he1 : fsExists fs (create_log_filename sig cp) = false :=
      (fsExists_false_iff _ _).mpr h1
    simp [read_log, read_file, he1, fsExists_true_of_read _ _ _ h2, h2,
      gunzip_gzipC]
  · intro h1 h2
    have he1 : fsExists fs (create_log_filename sig cp) = false :=
      (fsExists_false_iff _ _).mpr h1
    have he2 : fsExists fs (create_log_filename sig cp ++ lit ".gz") = false :=
      (fsExists_false_iff _ _).mpr h2
    simp [read_log, read_file, he1, he2]

/-- C9, witness: the theorem applied at a state holding only the gzipped log,
with the default-parameter shapes. -/
theorem read_log_content_witness :
    (fsRead [(pjoin3 (lit "r") (lit "log") (lit "sig.txt") ++ lit ".gz",
        gzipC (lit "LOG"))]
        (create_log_filename (lit "sig")
          { rootDir := lit "r", incDir := lit "inc", srcDir := lit "src",
            libDir := lit "lib", logDir := lit "log", incSuffix := lit ".h",
            srcSuffix := lit ".cpp", logSuffix := lit ".txt",
            libSuffix := lit ".so", libPre := lit "libdijitso-",
            srcStorage := lit "keep" }) = none)
    ∧ read_log (lit "sig")
        { rootDir := lit "r", incDir := lit "inc", srcDir := lit "src",
          libDir := lit "lib", logDir := lit "log", incSuffix := lit ".h",
          srcSuffix := lit ".cpp", logSuffix := lit ".txt",
          libSuffix := lit ".so", libPre := lit "libdijitso-",
          srcStorage := lit "keep" }
        [(pjoin3 (lit "r") (lit "log") (lit "sig.txt") ++ lit ".gz",
          gzipC (lit "LOG"))] = some (lit "LOG") :=
  ⟨by decide,
    (read_log_content
      [(pjoin3 (lit "r") (lit "log") (lit "sig.txt") ++ lit ".gz",
        gzipC (lit "LOG"))]
      (lit "sig")
      { rootDir := lit "r", incDir := lit "inc", srcDir := lit "src",
        libDir := lit "lib", logDir := lit "log", incSuffix := lit ".h",
        srcSuffix := lit ".cpp", logSuffix := lit ".txt",
        libSuffix := lit ".so", libPre := lit "libdijitso-",
        srcStorage := lit "keep" } (lit "LOG")).2.1 (by decide) (by decide)⟩

/-! ### `build.py`: the compile command -/

/-- Build parameters as read by `build.py`.  Python dict keys renamed:
`cxxflags_debug` ↦ `cxxflagsDebug`, `cxxflags_opt` ↦ `cxxflagsOpt`,
`include_dirs` ↦ `includeDirs`, `lib_dirs` ↦ `libDirs`,
`rpath_dirs` ↦ `rpathDirs`. -/
structure BuildParams where
  cxx : Str
  cxxflags : List Str
  cxxflagsDebug : List Str
  cxxflagsOpt : List Str
  includeDirs : List Str
  libDirs : List Str
  rpathDirs : List Str
  libs : List Str
  debug : Bool
deriving DecidableEq, Repr

/-- `build.py` `make_unique`: deduplicate, preserving first occurrence.
Elements are `Option Str` because the cache-dir entries can be `None`. -/
def make_unique (dirs : List (Option Str)) : List (Option Str) :=
  dirs.foldl (fun u d => if d ∈ u then u else u ++ [d]) []

/-- `cache.py` `make_inc_dir`: its body only calls `makedirs(...)` (a
directory-level effect, identity on the file map) and has no `return`
statement, so the call evaluates to Python `None` — not the path. -/
def make_inc_dir (_cp : CacheParams) : Option Str := none

/-- `cache.py` `make_lib_dir`: like `make_inc_dir`, it returns `None`. -/
def make_lib_dir (_cp : CacheParams) : Option Str := none

/-- `os.path.abspath`, parameterized by the cwd-dependent absolutization
function `abs`; applied to Python `None` it raises `TypeError`. -/
def pyAbsPath (abs : Str → Str) : Option Str → Except PyErr Str
  | some d => .ok (abs d)
  | none => .error .typeError

/-- The list comprehension `[os.path.abspath(d) for d in dirs]`, evaluated
left to right with the first exception propagating. -/
def absEach (abs : Str → Str) : List (Option Str) → Except PyErr (List Str)
  | [] => .ok []
  | d :: t =>
    match pyAbsPath abs d with
    | .error e => .error e
    | .ok a =>
      match absEach abs t with
      | .error e => .error e
      | .ok r => .ok (a :: r)

/-- `build.py` `make_compile_command(src_filename, lib_filename, dependencies,
build_params, cache_params)`. -/
def make_compile_command (abs : Str → Str) (src_filename lib_filename : Str)
    (dependencies : List Str) (bp : BuildParams) (cp : CacheParams) :
    Except PyErr (List Str) :=
  let args0 := [bp.cxx] ++ [lit "-o" ++ lib_filename]
    ++ bp.cxxflags ++ (if bp.debug then bp.cxxflagsDebug else bp.cxxflagsOpt)
  let include_dirs := make_unique (bp.includeDirs.map some ++ [make_inc_dir cp])
  let lib_dirs := make_unique (bp.libDirs.map some ++ [make_lib_dir cp])
  let rpath_dirs := make_unique (bp.rpathDirs.map some ++ [make_lib_dir cp])
  match absEach abs include_dirs with
  | .error e => .error e
  | .ok incs =>
    match absEach abs lib_dirs with
    | .error e => .error e
    | .ok libds =>
      match absEach abs rpath_dirs with
      | .error e => .error e
      | .ok rpds =>
        let deplibs := dependencies.map (fun d => create_lib_filename d cp)
        .ok (args0 ++ incs.map (fun p => lit "-I" ++ p)
          ++ libds.map (fun p => lit "-L" ++ p)
          ++ rpds.map (fun p => lit "-Wl,-rpath," ++ p)
          ++ [src_filename]
          ++ deplibs.map (fun l => lit "-l" ++ l)
          ++ bp.libs.map (fun l => lit "-l" ++ l))

theorem mem_make_unique (l : List (Option Str)) (x : Option Str) (h : x ∈ l) :
    x ∈ make_unique l := by
  unfold make_unique
  suffices H : ∀ acc, x ∈ acc ∨ x ∈ l →
      x ∈ l.foldl (fun u d => if d ∈ u then u else u ++ [d]) acc from
    H [] (Or.inr h)
  clear h
  induction l with
  | nil =>
    intro acc hacc
    simpa using hacc.resolve_right (by simp)
  | cons d t ih =>
    intro acc hacc
    rw [List.foldl_cons]
    apply ih
    rcases hacc with hx | hx
    · left
      by_cases hd : d ∈ acc
      · rw [if_pos hd]; exact hx
      · rw [if_neg hd]; exact List.mem_append.mpr (Or.inl hx)
    · rcases List.mem_cons.mp hx with rfl | hx
      · left
        by_cases hd : x ∈ acc
        · rw [if_pos hd]; exact hd
        · rw [if_neg hd]; exact List.mem_append.mpr (Or.inr (by simp))
      · right; exact hx

theorem absEach_error_of_none (abs : Str → Str) (l : List (Option Str))
    (h : none ∈ l) : absEach abs l = .error .typeError := by
  induction l with
  | nil => cases h
  | cons d t ih =>
    rcases List.mem_cons.mp h with hd | ht
    · rw [← hd]; rfl
    · cases d with
      | none => rfl
      | some a => simp [absEach, pyAbsPath, ih ht]

/-! ### Claim C6: `make_compile_command` -/

/-- C6.  `build.py`'s `make_compile_command` never produces an argv at all:
`make_inc_dir`/`make_lib_dir` in `cache.py` return `None` (their bodies have
no `return`), `None` survives `make_unique`, and `os.path.abspath(None)`
raises `TypeError` — for every input. -/
theorem make_compile_command_raises (abs : Str → Str)
    (src_filename lib_filename : Str) (dependencies : List Str)
    (bp : BuildParams) (cp : CacheParams) :
    make_compile_command abs src_filename lib_filename dependencies bp cp
      = .error .typeError := by
  have hmem : (none : Option Str)
      ∈ make_unique (List.map some bp.includeDirs ++ [make_inc_dir cp]) :=
    mem_make_unique _ _ (List.mem_append.mpr (Or.inr (by simp [make_inc_dir])))
  unfold make_compile_command
  simp only [absEach_error_of_none abs _ hmem]

/-! ### `jit.py`: the self-contained JIT pipeline

`jit.py` carries its own (older) copies of the cache and build helpers and the
`jit` driver; they are embedded here under the `JitPy` namespace with the
source's names.  Opaque environment pieces are parameters: `loader` models
`ctypes.cdll.LoadLibrary` (filename ↦ handle), `compiler` models `os.system`
on the compile command (command and filesystem ↦ exit status and new
filesystem), and `generator` models the user callback with `jitable` and
`generator_params` fixed. -/

/-- Generic Python-dict get on an association list. -/
def dictGet {β : Type} (m : List (Str × β)) (k : Str) : Option β :=
  match m with
  | [] => none
  | (a, b) :: t => if a = k then some b else dictGet t k

/-- Generic Python-dict delete. -/
def dictDelete {β : Type} (m : List (Str × β)) (k : Str) : List (Str × β) :=
  match m with
  | [] => []
  | (a, b) :: t => if a = k then dictDelete t k else (a, b) :: dictDelete t k

/-- Generic Python-dict assignment `m[k] = v`. -/
def dictSet {β : Type} (m : List (Str × β)) (k : Str) (v : β) : List (Str × β) :=
  (k, v) :: dictDelete m k

theorem dictGet_dictSet_self {β : Type} (m : List (Str × β)) (k : Str) (v : β) :
    dictGet (dictSet m k v) k = some v := by
  simp [dictSet, dictGet]

/-- Cache parameters as read by `jit.py` (`default_cache_params` there):
`src_dir` ↦ `srcDir`, `lib_dir` ↦ `libDir`, `src_prefix` ↦ `srcPre`,
`src_postfix` ↦ `srcSuffix`, `src_storage` ↦ `srcStorage`,
`lib_prefix` ↦ `libPre`, `lib_postfix` ↦ `libSuffix`. -/
structure JCacheParams where
  srcDir : Str
  libDir : Str
  srcPre : Str
  srcSuffix : Str
  srcStorage : Str
  libPre : Str
  libSuffix : Str
deriving DecidableEq, Repr

/-- Build parameters as read by `jit.py`. -/
structure JBuildParams where
  cxx : Str
  cxxflags : List Str
  cxxflagsDebug : List Str
  cxxflagsOpt : List Str
  includeDirs : List Str
  libs : List Str
  debug : Bool
deriving DecidableEq, Repr

/-- Process state of `jit.py`: the filesystem plus the module-global
`_lib_cache` (signature ↦ loaded ctypes handle, handles as opaque `Nat`). -/
structure JState where
  fs : FS
  libCache : List (Str × Nat)
deriving DecidableEq, Repr

/-- Observable events of a `jit.py` run. -/
inductive JEvent where
  /-- The user `generator` callback was invoked for this signature. -/
  | genCall (signature : Str)
  /-- `os.system` ran this compile command. -/
  | compile (cmd : List Str)
  /-- `ctypes.cdll.LoadLibrary` loaded this file. -/
  | load (filename : Str)
deriving DecidableEq, Repr

namespace JitPy

/-- `jit.py` `default_cache_params`. -/
def default_cache_params : JCacheParams :=
  { srcDir := lit ".dijitso/src", libDir := lit ".dijitso/lib",
    srcPre := lit "dijitso_", srcSuffix := lit ".cpp",
    srcStorage := lit "keep", libPre := lit "lib_dijitso_",
    libSuffix := lit ".so" }

/-- `jit.py` `default_build_params`. -/
def default_build_params : JBuildParams :=
  { cxx := lit "g++",
    cxxflags := [lit "-shared", lit "-fPIC", lit "-fvisibility=hidden"],
    cxxflagsDebug := [lit "-g", lit "-O0"],
    cxxflagsOpt := [lit "-O3"],
    includeDirs := [], libs := [], debug := false }

/-- `jit.py` `create_src_filename`. -/
def create_src_filename (signature : Str) (cp : JCacheParams) : Str :=
  pjoin cp.srcDir (cp.srcPre ++ signature ++ cp.srcSuffix)

/-- `jit.py` `create_lib_filename`. -/
def create_lib_filename (signature : Str) (cp : JCacheParams) : Str :=
  pjoin cp.libDir (cp.libPre ++ signature ++ cp.libSuffix)

/-- `jit.py` `load_library`: `None` when the file is absent; otherwise load
and register the handle in `_lib_cache`. -/
def load_library (loader : Str → Nat) (signature : Str) (cp : JCacheParams)
    (s : JState) : Option Nat × JState × List JEvent :=
  let lib_filename := create_lib_filename signature cp
  if fsExists s.fs lib_filename = false then (none, s, [])
  else
    let lib := loader lib_filename
    (some lib, { s with libCache := dictSet s.libCache signature lib },
      [.load lib_filename])

/-- `jit.py` `lookup_lib`: memory cache first, then disk. -/
def lookup_lib (loader : Str → Nat) (signature : Str) (cp : JCacheParams)
    (s : JState) : Option Nat × JState × List JEvent :=
  match dictGet s.libCache signature with
  | some lib => (some lib, s, [])
  | none => load_library loader signature cp s

/-- `jit.py` `store_src`: write the source, or — when the file already exists
with different content — write `<file>.new` and raise through `error()`
(which in `jit.py` raises `RuntimeError`). -/
def store_src (signature src : Str) (cp : JCacheParams) (s : JState) :
    JState × Except PyErr Str :=
  let fn := create_src_filename signature cp
  match fsRead s.fs fn with
  | none => ({ s with fs := fsWrite s.fs fn src }, .ok fn)
  | some found =>
    if found ≠ src then
      ({ s with fs := fsWrite s.fs (fn ++ lit ".new") src }, .error .runtimeError)
    else (s, .ok fn)

/-- `jit.py` `generate_source_code`. -/
def generate_source_code (generator : Str → Str) (signature : Str)
    (cp : JCacheParams) (s : JState) : JState × List JEvent × Except PyErr Str :=
  let src := generator signature
  match store_src signature src cp s with
  | (s', r) => (s', [.genCall signature], r)

/-- `jit.py` `make_compile_command`. -/
def make_compile_command (src_filename lib_filename : Str) (bp : JBuildParams) :
    List Str :=
  [bp.cxx] ++ bp.cxxflags
    ++ (if bp.debug then bp.cxxflagsDebug else bp.cxxflagsOpt)
    ++ bp.includeDirs.map (fun i => lit "-I" ++ i)
    ++ bp.libs.map (fun i => lit "-L" ++ i)
    ++ [lit "-o" ++ lib_filename] ++ [src_filename]

/-- `jit.py` `compile_library`: run the command through `os.system`; a
non-zero status raises through `error()` (`RuntimeError`). -/
def compile_library (compiler : List Str → FS → Nat × FS)
    (src_filename lib_filename : Str) (bp : JBuildParams) (s : JState) :
    JState × List JEvent × Except PyErr Nat :=
  let cmd := make_compile_command src_filename lib_filename bp
  let r := compiler cmd s.fs
  if r.1 ≠ 0 then ({ s with fs := r.2 }, [.compile cmd], .error .runtimeError)
  else ({ s with fs := r.2 }, [.compile cmd], .ok r.1)

/-- `jit.py` `build_shared_library`: compiles directly into the cache lib
directory (`makedirs` is directory-only, identity on the file map). -/
def build_shared_library (compiler : List Str → FS → Nat × FS)
    (signature src_filename : Str) (cp : JCacheParams) (bp : JBuildParams)
    (s : JState) : JState × List JEvent × Except PyErr Str :=
  let lib_filename := create_lib_filename signature cp
  match compile_library compiler src_filename lib_filename bp s with
  | (s', ev, .error e) => (s', ev, .error e)
  | (s', ev, .ok _) => (s', ev, .ok lib_filename)

/-- `jit.py` `compress_source_code` (same dispatch as the `cache.py` variant;
`error()` in `jit.py` raises `RuntimeError`). -/
def compress_source_code (fs : FS) (src_filename : Str) (cp : JCacheParams) :
    Except PyErr FS :=
  if cp.srcStorage = lit "keep" then .ok fs
  else if cp.srcStorage = lit "delete" then .ok (fsDelete fs src_filename)
  else if cp.srcStorage = lit "compress" then
    match fsRead fs src_filename with
    | none => .error .ioError
    | some c =>
      .ok (fsDelete (fsWrite fs (src_filename ++ lit ".gz") (gzipC c)) src_filename)
  else .error .runtimeError

/-- `jit.py` `jit(signature, generator, jitable, params, role, copy_comm,
wait_comm)`.  `copyComm = some blob` models a communicator delivering the
library bytes `blob` to a receiver; `send_library` and the `wait_comm`
barrier have no local filesystem effect.  Returns the final state, the event
trace, and the returned handle (or the exception). -/
def jit (loader : Str → Nat) (compiler : List Str → FS → Nat × FS)
    (generator : Str → Str) (signature : Str) (cp : JCacheParams)
    (bp : JBuildParams) (role : Str) (copyComm : Option Str)
    (s : JState) : JState × List JEvent × Except PyErr (Option Nat) :=
  match lookup_lib loader signature cp s with
  | (some lib, s', ev) => (s', ev, .ok (some lib))
  | (none, s1, ev1) =>
    if role = lit "builder" then
      match generate_source_code generator signature cp s1 with
      | (s2, ev2, .error e) => (s2, ev1 ++ ev2, .error e)
      | (s2, ev2, .ok src_filename) =>
        match build_shared_library compiler signature src_filename cp bp s2 with
        | (s3, ev3, .error e) => (s3, ev1 ++ ev2 ++ ev3, .error e)
        | (s3, ev3, .ok _lib_filename) =>
          match compress_source_code s3.fs src_filename cp with
          | .error e => (s3, ev1 ++ ev2 ++ ev3, .error e)
          | .ok fs4 =>
            match load_library loader signature cp { s3 with fs := fs4 } with
            | (libO, s5, ev5) => (s5, ev1 ++ ev2 ++ ev3 ++ ev5, .ok libO)
    else if role = lit "receiver" then
      match copyComm with
      | none => (s1, ev1, .error .assertionError)
      | some blob =>
        let s2 := { s1 with
          fs := fsWrite s1.fs (create_lib_filename signature cp) blob }
        match load_library loader signature cp s2 with
        | (libO, s3, ev3) => (s3, ev1 ++ ev3, .ok libO)
    else if role = lit "waiter" then
      match load_library loader signature cp s1 with
      | (libO, s2, ev2) => (s2, ev1 ++ ev2, .ok libO)
    else (s1, ev1, .error .runtimeError)

end JitPy

/-! ### Claim C3: compile failure and the cache tree -/

/-- C3: on a failing compile (`os.system` exit status 1), the `jit` driver of
`jit.py` raises `RuntimeError` and leaves the generated source for the
signature sitting in the cache's src directory, and no `jitfailure-…` entry of
any kind is created — contradicting the claimed failure isolation. -/
theorem jit_compile_failure_keeps_cache_src :
    (JitPy.jit (fun _ => 0) (fun _ fs => (1, fs)) (fun _ => lit "bad")
        (lit "x") JitPy.default_cache_params JitPy.default_build_params
        (lit "builder") none ⟨[], []⟩).2.2 = .error .runtimeError
    ∧ fsExists
        (JitPy.jit (fun _ => 0) (fun _ fs => (1, fs)) (fun _ => lit "bad")
          (lit "x") JitPy.default_cache_params JitPy.default_build_params
          (lit "builder") none ⟨[], []⟩).1.fs
        (JitPy.create_src_filename (lit "x") JitPy.default_cache_params) = true
    ∧ ((JitPy.jit (fun _ => 0) (fun _ fs => (1, fs)) (fun _ => lit "bad")
          (lit "x") JitPy.default_cache_params JitPy.default_build_params
          (lit "builder") none ⟨[], []⟩).1.fs.all
        fun p => !(decide (lit "jitfailure-" <+: p.1))) = true := by
  decide

/-! ### Claim C5: warm lookups hit the in-memory map -/

theorem load_library_some (loader : Str → Nat) (sig : Str) (cp : JCacheParams)
    (s s' : JState) (hdl : Nat) (ev : List JEvent)
    (h : JitPy.load_library loader sig cp s = (some hdl, s', ev)) :
    dictGet s'.libCache sig = some hdl := by
  unfold JitPy.load_library at h
  dsimp only at h
  split at h
  · exact absurd (congrArg (fun p => p.1) h) (by simp)
  · have hs : s' = { s with
        libCache := dictSet s.libCache sig
          (loader (JitPy.create_lib_filename sig cp)) } :=
      (congrArg (fun p => p.2.1) h).symm
    have hh : some (loader (JitPy.create_lib_filename sig cp)) = some hdl :=
      congrArg (fun p => p.1) h
    injection hh with hh
    rw [hs]
    simpa using hh ▸ dictGet_dictSet_self s.libCache sig _

theorem lookup_lib_some (loader : Str → Nat) (sig : Str) (cp : JCacheParams)
    (s s' : JState) (hdl : Nat) (ev : List JEvent)
    (h : JitPy.lookup_lib loader sig cp s = (some hdl, s', ev)) :
    dictGet s'.libCache sig = some hdl := by
  unfold JitPy.lookup_lib at h
  split at h
  · next lib hget =>
    have hs : s' = s := (congrArg (fun p => p.2.1) h).symm
    have hh : some lib = some hdl := congrArg (fun p => p.1) h
    injection hh with hh
    rw [hs, hget, hh]
  · exact load_library_some loader sig cp s s' hdl ev h

/-- C5.  Once a `jit` call has returned a library handle for a signature, the
handle is registered in the process-wide `_lib_cache`; every subsequent
`lookup_lib` returns that identical handle straight from the in-memory map,
and a subsequent `jit` call — with any role, compiler or generator — returns
it with an empty event trace: no generator invocation, no compile, no load. -/
theorem jit_warm_lookup (loader : Str → Nat)
    (compiler : List Str → FS → Nat × FS) (generator : Str → Str)
    (signature : Str) (cp : JCacheParams) (bp : JBuildParams) (role : Str)
    (copyComm : Option Str) (s s' : JState) (tr : List JEvent) (hdl : Nat)
    (h : JitPy.jit loader compiler generator signature cp bp role copyComm s
      = (s', tr, .ok (some hdl))) :
    dictGet s'.libCache signature = some hdl
    ∧ JitPy.lookup_lib loader signature cp s' = (some hdl, s', [])
    ∧ ∀ (compiler2 : List Str → FS → Nat × FS) (generator2 : Str → Str)
        (role2 : Str) (copyComm2 : Option Str),
        JitPy.jit loader compiler2 generator2 signature cp bp role2 copyComm2 s'
          = (s', [], .ok (some hdl)) := by
  have hcache : dictGet s'.libCache signature = some hdl := by
    unfold JitPy.jit at h
    split at h
    · next lib s'' ev heq =>
      have hs : s'' = s' := congrArg (fun p => p.1) h
      have hh : Except.ok (α := Option Nat) (some lib)
          = Except.ok (α := Option Nat) (some hdl) :=
        congrArg (fun p => p.2.2) h
      injection hh with hh
      injection hh with hh
      subst hs
      rw [hh] at heq
      exact lookup_lib_some loader signature cp s _ hdl ev heq
    · next s1 ev1 heq1 =>
      split at h
      · -- builder
        split at h
        · exact absurd (congrArg (fun p => p.2.2) h) (by simp)
        · split at h
          · exact absurd (congrArg (fun p => p.2.2) h) (by simp)
          · split at h
            · exact absurd (congrArg (fun p => p.2.2) h) (by simp)
            · next fs4 hc4 =>
              split at h
              next libO s5 ev5 heq5 =>
                have hs : s' = s5 := (congrArg (fun p => p.1) h).symm
                have hh : Except.ok libO = Except.ok (some hdl) :=
                  congrArg (fun p => p.2.2) h
                injection hh with hh
                subst hs
                exact load_library_some loader signature cp _ s' hdl ev5
                  (hh ▸ heq5)
      · split at h
        · -- receiver
          split at h
          · exact absurd (congrArg (fun p => p.2.2) h) (by simp)
          · next blob =>
            dsimp only at h
            rcases hload : JitPy.load_library loader signature cp
                { fs := fsWrite s1.fs (JitPy.create_lib_filename signature cp) blob,
                  libCache := s1.libCache } with ⟨libO, s3, ev3⟩
            rw [hload] at h
            have hs : s' = s3 := (congrArg (fun p => p.1) h).symm
            have hh : Except.ok libO = Except.ok (some hdl) :=
              congrArg (fun p => p.2.2) h
            injection hh with hh
            subst hs
            exact load_library_some loader signature cp _ s' hdl ev3
              (hh ▸ hload)
        · split at h
          · -- waiter
            split at h
            next libO s2 ev2 heq2 =>
              have hs : s' = s2 := (congrArg (fun p => p.1) h).symm
              have hh : Except.ok libO = Except.ok (some hdl) :=
                congrArg (fun p => p.2.2) h
              injection hh with hh
              subst hs
              exact load_library_some loader signature cp _ s' hdl ev2
                (hh ▸ heq2)
          · exact absurd (congrArg (fun p => p.2.2) h) (by simp)
  have hlookup : JitPy.lookup_lib loader signature cp s' = (some hdl, s', []) := by
    unfold JitPy.lookup_lib
    rw [hcache]
  refine ⟨hcache, hlookup, ?_⟩
  intro compiler2 generator2 role2 copyComm2
  unfold JitPy.jit
  rw [hlookup]

/-- C5, witness: a memory-hit `jit` call, followed through the theorem. -/
theorem jit_warm_lookup_witness :
    dictGet (JState.mk [] [(lit "sig", 7)]).libCache (lit "sig") = some 7
    ∧ JitPy.lookup_lib (fun _ => 9) (lit "sig") JitPy.default_cache_params
        ⟨[], [(lit "sig", 7)]⟩ = (some 7, ⟨[], [(lit "sig", 7)]⟩, [])
    ∧ JitPy.jit (fun _ => 9) (fun _ fs => (0, fs)) (fun _ => lit "s")
        (lit "sig") JitPy.default_cache_params JitPy.default_build_params
        (lit "waiter") none ⟨[], [(lit "sig", 7)]⟩
      = (⟨[], [(lit "sig", 7)]⟩, [], .ok (some 7)) := by
  have H := jit_warm_lookup (fun _ => 9) (fun _ fs => (0, fs)) (fun _ => lit "s")
    (lit "sig") JitPy.default_cache_params JitPy.default_build_params
    (lit "builder") none ⟨[], [(lit "sig", 7)]⟩ ⟨[], [(lit "sig", 7)]⟩ [] 7
    (by decide)
  exact ⟨H.1, H.2.1, H.2.2 (fun _ fs => (0, fs)) (fun _ => lit "s")
    (lit "waiter") none⟩

/-! ### `params.py`: parameter validation

Parameter values.  The defaults of `params.py` contain only strings, tuples
of strings and booleans, so the `int`/`float` coercion branch of
`validate_params` is unreachable and the value type needs only these three
shapes. -/
inductive PyVal where
  | str (s : Str)
  | strTuple (l : List Str)
  | bool (b : Bool)
deriving DecidableEq, Repr

/-- Python dict assignment that keeps the key's position when it exists and
appends otherwise (`d[k] = v` semantics, as exercised by `dict.update`). -/
def dictSetKeep {β : Type} (m : List (Str × β)) (k : Str) (v : β) :
    List (Str × β) :=
  if (dictGet m k).isSome then m.map (fun kv => if kv.1 = k then (k, v) else kv)
  else m ++ [(k, v)]

/-- Python `d.update(kvs)`. -/
def updateDict (d : List (Str × PyVal)) (kvs : List (Str × PyVal)) :
    List (Str × PyVal) :=
  kvs.foldl (fun acc kv => dictSetKeep acc kv.1 kv.2) d

theorem dictGet_append_singleton_none {β : Type} (acc : List (Str × β))
    (kv : Str × β) (x : Str) (hx : dictGet acc x = none) (hk : kv.1 ≠ x) :
    dictGet (acc ++ [kv]) x = none := by
  induction acc with
  | nil => simp [dictGet, hk]
  | cons p t ih =>
    rw [dictGet] at hx
    by_cases hp : p.1 = x
    · rw [if_pos hp] at hx; cases hx
    · rw [if_neg hp] at hx
      rw [List.cons_append]
      show dictGet ((p.1, p.2) :: (t ++ [kv])) x = none
      rw [dictGet, if_neg hp]
      exact ih hx

theorem updateDict_append (g : List (Str × PyVal)) :
    ∀ acc, (g.map Prod.fst).Nodup → (∀ kv ∈ g, dictGet acc kv.1 = none) →
      updateDict acc g = acc ++ g := by
  induction g with
  | nil => intro acc _ _; simp [updateDict]
  | cons kv t ih =>
    intro acc hnd hdis
    have hstep : dictSetKeep acc kv.1 kv.2 = acc ++ [kv] := by
      unfold dictSetKeep
      rw [hdis kv (List.mem_cons_self _ _)]
      simp
    have hnd' : (t.map Prod.fst).Nodup := by
      rw [List.map_cons] at hnd
      exact (List.nodup_cons.mp hnd).2
    have hhead : kv.1 ∉ t.map Prod.fst := by
      rw [List.map_cons] at hnd
      exact (List.nodup_cons.mp hnd).1
    have hdis' : ∀ kv' ∈ t, dictGet (acc ++ [kv]) kv'.1 = none := by
      intro kv' hkv'
      refine dictGet_append_singleton_none acc kv kv'.1
        (hdis kv' (List.mem_cons_of_mem _ hkv')) ?_
      intro hc
      exact hhead (hc ▸ List.mem_map_of_mem Prod.fst hkv')
    unfold updateDict at *
    rw [List.foldl_cons, hstep, ih (acc ++ [kv]) hnd' hdis',
      List.append_assoc, List.singleton_append]

theorem updateDict_nil (g : List (Str × PyVal))
    (hg : (g.map Prod.fst).Nodup) : updateDict [] g = g := by
  simpa using updateDict_append g [] hg (fun kv _ => rfl)

namespace ParamsPy

/-- `params.py` `default_cache_params` (keys kept as Python strings). -/
def default_cache_params : List (Str × PyVal) :=
  [(lit "cache_dir", .str (lit "~/.cache/dijitso")),
   (lit "inc_dir", .str (lit "include")),
   (lit "src_dir", .str (lit "src")),
   (lit "lib_dir", .str (lit "lib")),
   (lit "comm_dir", .str (lit "comm")),
   (lit "log_dir", .str (lit "log")),
   (lit "src_storage", .str (lit "keep")),
   (lit "src_postfix", .str (lit ".cpp")),
   (lit "log_postfix", .str (lit ".txt")),
   (lit "inc_postfix", .str (lit ".h")),
   (lit "lib_postfix", .str (lit ".so")),
   (lit "lib_prefix", .str (lit "libdijitso-"))]

/-- `params.py` `default_build_params` (with the flag-tuple defaults). -/
def default_build_params : List (Str × PyVal) :=
  [(lit "cxx", .str (lit "g++")),
   (lit "cxxflags", .strTuple [lit "-shared", lit "-fPIC",
      lit "-fvisibility=hidden", lit "-std=c++11"]),
   (lit "cxxflags_debug", .strTuple [lit "-g", lit "-O0"]),
   (lit "cxxflags_opt", .strTuple [lit "-O3", lit "-fno-math-errno",
      lit "-fno-trapping-math", lit "-ffinite-math-only"]),
   (lit "include_dirs", .strTuple []),
   (lit "lib_dirs", .strTuple []),
   (lit "rpath_dirs", .strTuple []),
   (lit "libs", .strTuple []),
   (lit "debug", .bool false)]

/-- `params.py` `default_params`. -/
def default_params : List (Str × List (Str × PyVal)) :=
  [(lit "cache", default_cache_params),
   (lit "build", default_build_params),
   (lit "generator", [])]

/-- `params.py` `check_params_keys(default, params)`: the `generator`
category is skipped entirely; an unknown category or an unknown key in a
known category raises through `error()` (fatal). -/
def check_params_keys (default : List (Str × List (Str × PyVal)))
    (params : List (Str × Option (List (Str × PyVal)))) : Except PyErr Unit :=
  match params with
  | [] => .ok ()
  | (cat, v) :: t =>
    if cat = lit "generator" then check_params_keys default t
    else
      match dictGet default cat with
      | none => .error .fatal
      | some dcat =>
        match v with
        | none => check_params_keys default t
        | some kvs =>
          if kvs.any (fun kv => (dictGet dcat kv.1).isNone) then .error .fatal
          else check_params_keys default t

/-- `params.py` `merge_params(default, params)`. -/
def merge_params (default : List (Str × List (Str × PyVal)))
    (params : List (Str × Option (List (Str × PyVal)))) :
    List (Str × List (Str × PyVal)) :=
  default.map (fun cat =>
    match dictGet params cat.1 with
    | some (some kvs) => (cat.1, updateDict cat.2 kvs)
    | _ => (cat.1, cat.2))

/-- `params.py` `as_bool`. -/
def as_bool (v : PyVal) : Except PyErr PyVal :=
  match v with
  | .bool b => .ok (.bool b)
  | .str s =>
    if s = lit "True" ∨ s = lit "true" ∨ s = lit "1" then .ok (.bool true)
    else if s = lit "False" ∨ s = lit "false" ∨ s = lit "0" then .ok (.bool false)
    else .error .fatal
  | _ => .error .fatal

/-- `params.py` `as_str_tuple` (raises `RuntimeError` on anything that is not
a string or tuple/list of strings). -/
def as_str_tuple (v : PyVal) : Except PyErr PyVal :=
  match v with
  | .str s => .ok (.strTuple [s])
  | .strTuple l => .ok (.strTuple l)
  | _ => .error .runtimeError

/-- One step of the type-coercion loop of `validate_params`, for default
value `v0` at key `name`.  For string defaults, a key ending in `_dir` whose
value contains `~` goes through `os.path.expanduser` (the `expand`
parameter); Python's `"~" in value` raises `TypeError` on a boolean and
checks element membership on a tuple, where a hit would then crash
`expanduser`. -/
def coerce_value (expand : Str → Str) (name : Str) (v0 value : PyVal) :
    Except PyErr PyVal :=
  match v0 with
  | .str _ =>
    match value with
    | .str s =>
      if lit "_dir" <:+ name ∧ '~' ∈ s then .ok (.str (expand s)) else .ok value
    | .strTuple l =>
      if lit "_dir" <:+ name ∧ lit "~" ∈ l then .error .typeError else .ok value
    | .bool _ =>
      if lit "_dir" <:+ name then .error .typeError else .ok value
  | .bool _ => as_bool value
  | .strTuple _ => as_str_tuple value

/-- The inner loop of the coercion pass over one category. -/
def coerce_cat (expand : Str → Str) (p0cat : List (Str × PyVal)) :
    List (Str × PyVal) → Except PyErr (List (Str × PyVal))
  | [] => .ok []
  | (name, value) :: t =>
    match dictGet p0cat name with
    | none => .error .keyError
    | some v0 =>
      match coerce_value expand name v0 value with
      | .error e => .error e
      | .ok v' =>
        match coerce_cat expand p0cat t with
        | .error e => .error e
        | .ok t' => .ok ((name, v') :: t')

/-- The coercion pass of `validate_params`: `generator` is skipped, all other
categories are coerced against the *original* defaults `p0`. -/
def coerce_params (expand : Str → Str) (p0 : List (Str × List (Str × PyVal))) :
    List (Str × List (Str × PyVal)) →
      Except PyErr (List (Str × List (Str × PyVal)))
  | [] => .ok []
  | (cat, kvs) :: t =>
    if cat = lit "generator" then
      match coerce_params expand p0 t with
      | .error e => .error e
      | .ok t' => .ok ((cat, kvs) :: t')
    else
      match dictGet p0 cat with
      | none => .error .keyError
      | some p0cat =>
        match coerce_cat expand p0cat kvs with
        | .error e => .error e
        | .ok kvs' =>
          match coerce_params expand p0 t with
          | .error e => .error e
          | .ok t' => .ok ((cat, kvs') :: t')

/-- Set `p[cat][key] = v` for an existing category. -/
def setNested (p : List (Str × List (Str × PyVal))) (cat key : Str)
    (v : PyVal) : List (Str × List (Str × PyVal)) :=
  p.map (fun c => if c.1 = cat then (c.1, dictSetKeep c.2 key v) else c)

/-- `params.py` `validate_params(params)`.  `expand` is
`os.path.expanduser`, `env` is `os.environ.get("INSTANT_CACHE_DIR")`, and
`cfg` is the (cached) content of `read_config_file()` — `[]` when no config
file is found. -/
def validate_params (expand : Str → Str) (env : Option Str)
    (cfg params : List (Str × Option (List (Str × PyVal)))) :
    Except PyErr (List (Str × List (Str × PyVal))) :=
  let p0 := default_params
  let step1 : Except PyErr (List (Str × List (Str × PyVal))) :=
    if cfg = [] then .ok p0
    else
      match check_params_keys p0 cfg with
      | .error e => .error e
      | .ok _ => .ok (merge_params p0 cfg)
  match step1 with
  | .error e => .error e
  | .ok p1 =>
    let step2 : Except PyErr (List (Str × List (Str × PyVal))) :=
      if params = [] then .ok p1
      else
        match check_params_keys p1 params with
        | .error e => .error e
        | .ok _ => .ok (merge_params p1 params)
    match step2 with
    | .error e => .error e
    | .ok p2 =>
      match coerce_params expand p0 p2 with
      | .error e => .error e
      | .ok p3 =>
        .ok (match env with
          | none => p3
          | some c => setNested p3 (lit "cache") (lit "cache_dir")
              (.str (pjoin c (lit "dijitso"))))

end ParamsPy

/-! ### Claim C7: parameter validation -/

theorem check_params_keys_step (d : List (Str × List (Str × PyVal)))
    (x : Str × Option (List (Str × PyVal)))
    (t : List (Str × Option (List (Str × PyVal)))) :
    ParamsPy.check_params_keys d (x :: t) = .error .fatal
    ∨ ParamsPy.check_params_keys d (x :: t) = ParamsPy.check_params_keys d t := by
  obtain ⟨c0, v0⟩ := x
  rw [ParamsPy.check_params_keys]
  by_cases hg : c0 = lit "generator"
  · rw [if_pos hg]; exact Or.inr rfl
  · rw [if_neg hg]
    rcases hd : dictGet d c0 with _ | dcat
    · exact Or.inl rfl
    · rcases v0 with _ | kvs
      · exact Or.inr rfl
      · dsimp only
        by_cases ha : kvs.any (fun kv => (dictGet dcat kv.1).isNone)
        · rw [if_pos ha]; exact Or.inl rfl
        · rw [if_neg ha]; exact Or.inr rfl

theorem check_params_keys_fatal_cat (d : List (Str × List (Str × PyVal)))
    (ps : List (Str × Option (List (Str × PyVal))))
    (cat : Str) (v : Option (List (Str × PyVal)))
    (hmem : (cat, v) ∈ ps) (hgen : cat ≠ lit "generator")
    (hnone : dictGet d cat = none) :
    ParamsPy.check_params_keys d ps = .error .fatal := by
  induction ps with
  | nil => cases hmem
  | cons x t ih =>
    rcases List.mem_cons.mp hmem with hx | hx
    · rw [← hx]
      unfold ParamsPy.check_params_keys
      rw [if_neg hgen, hnone]
    · rcases check_params_keys_step d x t with h | h
      · exact h
      · rw [h]; exact ih hx

theorem check_params_keys_fatal_key (d : List (Str × List (Str × PyVal)))
    (ps : List (Str × Option (List (Str × PyVal))))
    (cat : Str) (kvs : List (Str × PyVal)) (dcat : List (Str × PyVal))
    (k : Str) (vv : PyVal)
    (hmem : (cat, some kvs) ∈ ps) (hgen : cat ≠ lit "generator")
    (hd : dictGet d cat = some dcat) (hk : (k, vv) ∈ kvs)
    (hknone : dictGet dcat k = none) :
    ParamsPy.check_params_keys d ps = .error .fatal := by
  induction ps with
  | nil => cases hmem
  | cons x t ih =>
    rcases List.mem_cons.mp hmem with hx | hx
    · rw [← hx]
      unfold ParamsPy.check_params_keys
      rw [if_neg hgen, hd]
      dsimp only
      rw [if_pos (List.any_eq_true.mpr ⟨(k, vv), hk, by simp [hknone]⟩)]
    · rcases check_params_keys_step d x t with h | h
      · exact h
      · rw [h]; exact ih hx

/-- C7.  With no config file, `validate_params` rejects an unknown category
and rejects an unknown key inside a known non-`generator` category (such as
`cache` or `build`) with a fatal error, producing no result at all (in
particular no merged parameters and no environment-hack side effect); an
overrides mapping consisting of a `generator` category is accepted with its
keys passed through verbatim and unvalidated. -/
theorem validate_params_validation (expand : Str → Str) (env : Option Str)
    (params : List (Str × Option (List (Str × PyVal)))) :
    (∀ cat v, (cat, v) ∈ params → cat ≠ lit "generator" →
        dictGet ParamsPy.default_params cat = none →
        ParamsPy.validate_params expand env [] params = .error .fatal)
    ∧ (∀ cat kvs dcat k vv, (cat, some kvs) ∈ params → cat ≠ lit "generator" →
        dictGet ParamsPy.default_params cat = some dcat → (k, vv) ∈ kvs →
        dictGet dcat k = none →
        ParamsPy.validate_params expand env [] params = .error .fatal)
    ∧ (∀ g : List (Str × PyVal), (g.map Prod.fst).Nodup →
        ∃ p', ParamsPy.validate_params expand none []
            [(lit "generator", some g)] = .ok p'
          ∧ dictGet p' (lit "generator") = some g) := by
  refine ⟨?_, ?_, ?_⟩
  · intro cat v hmem hgen hnone
    cases params with
    | nil => cases hmem
    | cons hd tl =>
      have hch := check_params_keys_fatal_cat ParamsPy.default_params (hd :: tl)
        cat v hmem hgen hnone
      simp [ParamsPy.validate_params, hch]
  · intro cat kvs dcat k vv hmem hgen hd hk hknone
    cases params with
    | nil => cases hmem
    | cons hd0 tl =>
      have hch := check_params_keys_fatal_key ParamsPy.default_params
        (hd0 :: tl) cat kvs dcat k vv hmem hgen hd hk hknone
      simp [ParamsPy.validate_params, hch]
  · intro g hg
    have key : ParamsPy.validate_params expand none [] [(lit "generator", some g)]
        = .ok [(lit "cache",
            [(lit "cache_dir", .str (expand (lit "~/.cache/dijitso"))),
             (lit "inc_dir", .str (lit "include")),
             (lit "src_dir", .str (lit "src")),
             (lit "lib_dir", .str (lit "lib")),
             (lit "comm_dir", .str (lit "comm")),
             (lit "log_dir", .str (lit "log")),
             (lit "src_storage", .str (lit "keep")),
             (lit "src_postfix", .str (lit ".cpp")),
             (lit "log_postfix", .str (lit ".txt")),
             (lit "inc_postfix", .str (lit ".h")),
             (lit "lib_postfix", .str (lit ".so")),
             (lit "lib_prefix", .str (lit "libdijitso-"))]),
           (lit "build", ParamsPy.default_build_params),
           (lit "generator", updateDict [] g)] := rfl
    rw [updateDict_nil g hg] at key
    exact ⟨_, key, rfl⟩

/-- C7, witness: the theorem applied at an unknown category, an unknown
`cache` key, and a free-form `generator` override. -/
theorem validate_params_validation_witness :
    ParamsPy.validate_params id none [] [(lit "zap", none)] = .error .fatal
    ∧ ParamsPy.validate_params id none []
        [(lit "cache", some [(lit "bogus", PyVal.str (lit "x"))])]
      = .error .fatal
    ∧ ∃ p', ParamsPy.validate_params id none []
          [(lit "generator", some [(lit "whatever", PyVal.str (lit "v"))])]
        = .ok p'
      ∧ dictGet p' (lit "generator")
        = some [(lit "whatever", PyVal.str (lit "v"))] :=
  ⟨(validate_params_validation id none [(lit "zap", none)]).1
      (lit "zap") none (by decide) (by decide) (by decide),
   (validate_params_validation id none
      [(lit "cache", some [(lit "bogus", PyVal.str (lit "x"))])]).2.1
      (lit "cache") [(lit "bogus", PyVal.str (lit "x"))]
      ParamsPy.default_cache_params (lit "bogus") (PyVal.str (lit "x"))
      (by decide) (by decide) (by decide) (by decide) (by decide),
   (validate_params_validation id none []).2.2
      [(lit "whatever", PyVal.str (lit "v"))] (by decide)⟩

end Dijitso
